import Mathlib

/-!
Shallow embedding of the Unifi-Monitor product monitor (Go sources
`all_products.go` and `internal/config/config.go`) and verification of the
claims about it.

Modelling conventions:
* Go `map[string]bool` / `map[string]Product` become total functions
  `String → Bool` and `String → Option Product` (missing key reads the zero
  value `false` / `none`, exactly as in Go).
* The persisted `products.json` file is modelled by `FileData`: absent, empty,
  `valid ps` (content that JSON-decodes to the product list `ps`), or
  `corrupt` (content the decoder rejects).  JSON encode/decode of the
  `Product` struct is the identity on this abstraction.
* HTTP transport is out of scope; functions that mix transport with pure
  logic are embedded at the point downstream of the transport (the response
  body / decoded response / status sequence is the input).
* A Go panic (out-of-range index) is made explicit as a distinguished result.
-/

namespace UnifiMonitor

/-- Thumbnail record, from the `Thumbnail` struct in `all_products.go`. -/
structure Thumbnail where
  url : String
deriving DecidableEq, Repr

/-- Display price of a variant: integer minor-unit amount plus currency code,
from the anonymous `DisplayPrice` struct in `all_products.go` (`Amount int`,
`Currency string`). -/
structure DisplayPrice where
  amount : Int
  currency : String
deriving DecidableEq, Repr

/-- Product variant, from the `Variant` struct in `all_products.go`. -/
structure Variant where
  id : String
  displayPrice : DisplayPrice
deriving DecidableEq, Repr

/-- Product record, from the `Product` struct in `all_products.go`. -/
structure Product where
  id : String
  title : String
  shortDescription : String
  slug : String
  thumbnail : Thumbnail
  variants : List Variant
deriving DecidableEq, Repr

/-- In-memory state of the `UnifiStore` struct: the two companion maps and the
`Initialized` flag.  (`BaseURL`, `Headers`, `Categories` and the mutex carry no
state the claims depend on; the maps are Go maps, modelled as total functions
with the Go zero-value default.) -/
structure StoreState where
  knownProductIDs : String → Bool
  knownProducts : String → Option Product
  initialized : Bool

/-- State of the persisted `products.json` file, abstracting the JSON codec:
`valid ps` is any byte content that decodes to the list `ps`; `corrupt` is
non-empty content the decoder rejects. -/
inductive FileData where
  | absent : FileData
  | empty : FileData
  | valid : List Product → FileData
  | corrupt : FileData
deriving DecidableEq, Repr

/-- Store state as built by `CreateUnifiStore` before `loadKnownProducts`
runs: empty maps, `Initialized: false`. -/
def initialStoreState : StoreState :=
  { knownProductIDs := fun _ => false
    knownProducts := fun _ => none
    initialized := false }

/-- The two map insertions performed for a product, shared verbatim by the
load loop (`store.KnownProductIDs[product.ID] = true;
store.KnownProducts[product.ID] = product`) and by the diff loop in `Start`. -/
def recordProduct (st : StoreState) (p : Product) : StoreState :=
  { st with
    knownProductIDs := fun i => if i = p.id then true else st.knownProductIDs i
    knownProducts := fun i => if i = p.id then some p else st.knownProducts i }

/-- Embedding of `loadKnownProducts`: on a missing file it creates an empty
file and leaves the store untouched and uninitialized; on an empty file or a
decode failure it returns with the store untouched; on a valid JSON array it
inserts every product into both maps (in array order) and sets
`Initialized = true`.  Returns the updated store and the resulting file
state. -/
def loadKnownProducts (st : StoreState) (fd : FileData) : StoreState × FileData :=
  match fd with
  | .absent => ({ st with initialized := false }, .empty)
  | .empty => (st, .empty)
  | .corrupt => (st, .corrupt)
  | .valid ps =>
      ({ ps.foldl recordProduct st with initialized := true }, .valid ps)

/-- Embedding of `CreateUnifiStore`: fresh empty maps, `Initialized: false`,
then `loadKnownProducts`. -/
def CreateUnifiStore (fd : FileData) : StoreState × FileData :=
  loadKnownProducts initialStoreState fd

/-- Embedding of `saveKnownProducts`: opens (creating if needed) the file,
decodes the existing array (`io.EOF` on an empty/new file is tolerated and
yields the empty list), appends the new products, truncates and re-encodes.
A decode failure of the existing content aborts with an error before any
write. -/
def saveKnownProducts (fd : FileData) (newProducts : List Product) :
    Except String FileData :=
  match fd with
  | .absent => .ok (.valid newProducts)
  | .empty => .ok (.valid newProducts)
  | .corrupt => .error "failed to decode existing products"
  | .valid ps => .ok (.valid (ps ++ newProducts))

/-- Decimal rendering of a Go `int` as produced by the `%d` verb of
`fmt.Sprintf`. -/
def intDecimal (n : Int) : String :=
  if n < 0 then "-" ++ Nat.repr n.natAbs else Nat.repr n.toNat

/-- Rendering of a Go `int` by the `%02d` verb: the `%d` text, zero-padded on
the left to a minimum width of two characters. -/
def intDecimal02 (n : Int) : String :=
  let s := intDecimal n
  if s.length < 2 then "0" ++ s else s

/-- The price string built in both notifier implementations:
`fmt.Sprintf("$%d.%02d", amount/100, amount%100)` with Go's
truncated-towards-zero `/` and `%` on `int`. -/
def priceString (amount : Int) : String :=
  "$" ++ intDecimal (amount.tdiv 100) ++ "." ++ intDecimal02 (amount.tmod 100)

/-- Field of a webhook embed (`discordwebhook.Field` / `discord.Field`). -/
structure Field where
  name : String
  value : String
  inline : Bool
deriving DecidableEq, Repr

/-- The parts of the webhook embed that depend on the product (title, URL,
thumbnail, description, variant/price fields); the constant author, color and
footer strings and the wall-clock timestamp are not modelled. -/
structure Embed where
  title : String
  url : String
  thumbnailUrl : String
  description : String
  fields : List Field
deriving DecidableEq, Repr

/-- The embed constructed (identically) by `sendToDiscord` in
`all_products.go` and by `SendProduct` in `internal/discord`, given the first
variant `v` of the product.  The indexing `product.Variants[0]` is performed
by the caller. -/
def mkEmbed (p : Product) (v : Variant) : Embed :=
  { title := p.title
    url := "https://store.ui.com/us/en/products/" ++ p.slug
    thumbnailUrl := p.thumbnail.url
    description := p.shortDescription ++ "\n"
    fields :=
      [ { name := "Variant", value := v.id, inline := true }
      , { name := "Price", value := priceString v.displayPrice.amount, inline := true } ] }

/-- Observable outcome of one `sendToDiscord` call: skipped (store not
initialized, early return), a webhook payload actually posted, or a runtime
panic (the unguarded `product.Variants[0]` on an empty slice). -/
inductive SendOutcome where
  | skipped : SendOutcome
  | sent : Embed → SendOutcome
  | panicked : SendOutcome
deriving DecidableEq, Repr

/-- Embedding of `sendToDiscord`: returns immediately when the store is not
initialized; otherwise builds the embed from `product.Variants[0]` — an
out-of-range panic when the variants slice is empty — and posts it. -/
def sendToDiscord (st : StoreState) (p : Product) : SendOutcome :=
  if st.initialized = false then .skipped
  else
    match p.variants with
    | [] => .panicked
    | v :: _ => .sent (mkEmbed p v)

/-- Embedding of the payload construction of `SendProduct` in
`internal/discord/discord.go`: same embed, same unguarded `Variants[0]`
(`none` models the index-out-of-range panic). -/
def sendProductPayload (p : Product) : Option Embed :=
  match p.variants with
  | [] => none
  | v :: _ => some (mkEmbed p v)

/-- Embedding of the status-handling loop of `SendProduct`
(`internal/discord/discord.go`), driven by the list of HTTP status codes the
sink returns to successive attempts.  Result: `none` when the status list is
exhausted while still retrying, otherwise `some (success, attempts,
sleptSeconds)`.  A 429 sleeps 5 seconds and recurses; 200/204 succeed;
anything else returns an error without retrying. -/
def sendProductAttempts : List Nat → Option (Bool × Nat × Nat)
  | [] => none
  | s :: rest =>
      if s = 429 then
        match sendProductAttempts rest with
        | none => none
        | some (b, n, t) => some (b, n + 1, t + 5)
      else if s = 200 || s = 204 then some (true, 1, 0)
      else some (false, 1, 0)

/-- The per-category diff loop from `Start` (lines 437–448): for each fetched
product, if its id is not in `KnownProductIDs`, insert it into both maps,
append it to this cycle's `newProducts`, and call `sendToDiscord`.  Returns
the updated store, the `newProducts` list, and the outcome of each
`sendToDiscord` call in order. -/
def processCategory (st : StoreState) :
    List Product → StoreState × List Product × List SendOutcome
  | [] => (st, [], [])
  | p :: rest =>
      if st.knownProductIDs p.id then processCategory st rest
      else
        let st1 := recordProduct st p
        let r := processCategory st1 rest
        (r.1, p :: r.2.1, sendToDiscord st1 p :: r.2.2)

/-- One poll cycle of `Start` over the fetched product lists of the
categories, in category order (persistence of `newProducts` does not read or
write the in-memory maps and is tracked separately). -/
def processCycle (st : StoreState) :
    List (List Product) → StoreState × List Product × List SendOutcome
  | [] => (st, [], [])
  | cat :: cats =>
      let r1 := processCategory st cat
      let r2 := processCycle r1.1 cats
      (r2.1, r1.2.1 ++ r2.2.1, r1.2.2 ++ r2.2.2)

/-- A run of successive poll cycles of `Start`: each element of `cycles` is
the per-category fetch results of one cycle.  Returns the final store, the
concatenation of all `newProducts` (= the products for which `sendToDiscord`
was invoked), and all send outcomes in order. -/
def runCycles (st : StoreState) :
    List (List (List Product)) → StoreState × List Product × List SendOutcome
  | [] => (st, [], [])
  | c :: cs =>
      let r1 := processCycle st c
      let r2 := runCycles r1.1 cs
      (r2.1, r1.2.1 ++ r2.2.1, r1.2.2 ++ r2.2.2)

/-- Character class `[a-zA-Z0-9]` of the build-id pattern. -/
def isAlnumChar (c : Char) : Bool :=
  (decide ('a' ≤ c) && decide (c ≤ 'z')) ||
  (decide ('A' ≤ c) && decide (c ≤ 'Z')) ||
  (decide ('0' ≤ c) && decide (c ≤ '9'))

/-- Literal head of `buildIDPattern` in `all_products.go`. -/
def patHead : List Char := "https://assets-new.ecomm.ui.com/_next/static/".data

/-- Literal tail of `buildIDPattern` in `all_products.go`. -/
def patTail : List Char := "/_ssgManifest.js".data

/-- Matching of a literal character sequence at the start of the input:
`some rest` when `lit` is a prefix, `rest` the remainder. -/
def dropLit : List Char → List Char → Option (List Char)
  | [], l => some l
  | _ :: _, [] => none
  | a :: as_, c :: cs => if c = a then dropLit as_ cs else none

/-- Matching of `buildIDPattern` anchored at the start of `l`: the literal
head, then a maximal nonempty run of `[a-zA-Z0-9]` (Go's greedy `+`; no
shorter run can be followed by the `/` of the tail, since a run character is
alphanumeric and `/` is not), then the literal tail.  Returns the captured
run. -/
def matchPatternAt (l : List Char) : Option (List Char) :=
  match dropLit patHead l with
  | none => none
  | some rest =>
      let run := rest.takeWhile isAlnumChar
      if run.isEmpty then none
      else
        match dropLit patTail (rest.dropWhile isAlnumChar) with
        | none => none
        | some _ => some run

/-- Leftmost match of `buildIDPattern` (`FindStringSubmatch` scans candidate
start positions left to right): the first captured build id, if any. -/
def findBuildID : List Char → Option (List Char)
  | [] => none
  | c :: cs =>
      match matchPatternAt (c :: cs) with
      | some run => some run
      | none => findBuildID cs

/-- The data-endpoint URL `fetchBuildID` stores in `BaseURL`:
`fmt.Sprintf("https://store.ui.com/_next/data/%s/us/en.json", buildID)`. -/
def mkEndpoint (buildID : String) : String :=
  "https://store.ui.com/_next/data/" ++ buildID ++ "/us/en.json"

/-- Embedding of the body-processing part of `fetchBuildID` (the part after
the HTTP GET): scan the response body with `buildIDPattern`; on a match,
produce the endpoint built from the captured build id; otherwise fail with
the parse error. -/
def fetchBuildIDResult (body : String) : Except String String :=
  match findBuildID body.data with
  | some run => .ok (mkEndpoint (String.mk run))
  | none => .error "failed to extract build ID from response"

/-- The full pattern text for a given build id, used to state that a body
contains a match. -/
def patternChars (buildID : List Char) : List Char := patHead ++ buildID ++ patTail

/-- A build id as captured by the pattern: nonempty, all `[a-zA-Z0-9]`. -/
def ValidBuildID (buildID : List Char) : Prop :=
  buildID ≠ [] ∧ buildID.all isAlnumChar = true

instance (buildID : List Char) : Decidable (ValidBuildID buildID) := by
  unfold ValidBuildID
  infer_instance

/-- A decoded subcategory object of the category response (`subCategories`
entries of `pageProps`). -/
structure SubCategory where
  products : List Product
deriving DecidableEq, Repr

/-- The `pageProps` object of the category response. -/
structure PageProps where
  subCategories : List SubCategory
deriving DecidableEq, Repr

/-- Top-level decoded category response. -/
structure Response where
  pageProps : PageProps
deriving DecidableEq, Repr

/-- Embedding of the flattening loop of `fetchProducts` (after a successful
fetch and JSON unmarshal): append each subcategory's products, in order, to
the accumulating slice. -/
def fetchProductsFlatten (r : Response) : List Product :=
  r.pageProps.subCategories.foldl (fun acc sc => acc ++ sc.products) []

/-! Helper lemmas about the store maps. -/

theorem recordProduct_known (st : StoreState) (p : Product) (i : String) :
    (recordProduct st p).knownProductIDs i = true ↔
      (i = p.id ∨ st.knownProductIDs i = true) := by
  simp only [recordProduct]
  by_cases h : i = p.id <;> simp [h]

theorem recordProduct_lookup_self (st : StoreState) (p : Product) :
    (recordProduct st p).knownProducts p.id = some p := by
  simp [recordProduct]

theorem recordProduct_lookup_other (st : StoreState) (p : Product) (i : String)
    (h : i ≠ p.id) : (recordProduct st p).knownProducts i = st.knownProducts i := by
  simp [recordProduct, h]

theorem recordProduct_initialized (st : StoreState) (p : Product) :
    (recordProduct st p).initialized = st.initialized := rfl

theorem foldl_record_known (ps : List Product) :
    ∀ (st : StoreState) (i : String),
      ((ps.foldl recordProduct st).knownProductIDs i = true) ↔
        (st.knownProductIDs i = true ∨ i ∈ ps.map Product.id) := by
  induction ps with
  | nil => simp
  | cons p rest ih =>
      intro st i
      simp only [List.foldl_cons, List.map_cons, List.mem_cons]
      rw [ih]
      rw [recordProduct_known]
      tauto

theorem foldl_record_lookup_not_mem (ps : List Product) :
    ∀ (st : StoreState) (i : String), i ∉ ps.map Product.id →
      (ps.foldl recordProduct st).knownProducts i = st.knownProducts i := by
  induction ps with
  | nil => simp
  | cons p rest ih =>
      intro st i h
      simp only [List.map_cons, List.mem_cons, not_or] at h
      simp only [List.foldl_cons]
      rw [ih _ _ h.2, recordProduct_lookup_other _ _ _ h.1]

theorem foldl_record_lookup (ps : List Product) :
    ∀ (st : StoreState) (p : Product), (ps.map Product.id).Nodup → p ∈ ps →
      (ps.foldl recordProduct st).knownProducts p.id = some p := by
  induction ps with
  | nil => simp
  | cons q rest ih =>
      intro st p hnd hmem
      simp only [List.map_cons, List.nodup_cons] at hnd
      simp only [List.foldl_cons]
      rcases List.mem_cons.mp hmem with h | h
      · subst h
        rw [foldl_record_lookup_not_mem rest _ _ hnd.1]
        exact recordProduct_lookup_self st p
      · exact ih _ _ hnd.2 h

theorem foldl_record_initialized (ps : List Product) :
    ∀ st : StoreState, (ps.foldl recordProduct st).initialized = st.initialized := by
  induction ps with
  | nil => intro st; rfl
  | cons p rest ih =>
      intro st
      simp only [List.foldl_cons]
      rw [ih]
      rfl

/-- Companion-set invariant: the identifiers mapped to `true` in
`KnownProductIDs` are exactly the keys of `KnownProducts`. -/
def Companion (st : StoreState) : Prop :=
  ∀ i : String, st.knownProductIDs i = true ↔ (st.knownProducts i).isSome = true

theorem companion_initial : Companion initialStoreState := by
  intro i
  simp [initialStoreState]

theorem companion_record (st : StoreState) (p : Product) (h : Companion st) :
    Companion (recordProduct st p) := by
  intro i
  simp only [recordProduct]
  by_cases hi : i = p.id <;> simp [hi, h i]

theorem companion_foldl (ps : List Product) :
    ∀ st : StoreState, Companion st → Companion (ps.foldl recordProduct st) := by
  induction ps with
  | nil => intro st h; exact h
  | cons p rest ih =>
      intro st h
      simp only [List.foldl_cons]
      exact ih _ (companion_record st p h)

/-! Helper lemmas about the diff loop. -/

/-- What one `sendToDiscord` call does, as a function of the `Initialized`
flag only (the flag is the only part of the store the call reads). -/
def sendFlag (b : Bool) (p : Product) : SendOutcome :=
  if b = false then .skipped
  else
    match p.variants with
    | [] => .panicked
    | v :: _ => .sent (mkEmbed p v)

theorem sendToDiscord_eq_flag (st : StoreState) (p : Product) :
    sendToDiscord st p = sendFlag st.initialized p := rfl

theorem processCategory_initialized (ps : List Product) :
    ∀ st : StoreState, (processCategory st ps).1.initialized = st.initialized := by
  induction ps with
  | nil => intro st; rfl
  | cons p rest ih =>
      intro st
      by_cases h : st.knownProductIDs p.id = true <;>
        simp only [processCategory, h, if_true, Bool.not_eq_true] at * <;>
        simp [h, ih, recordProduct_initialized]

theorem processCategory_known_iff (ps : List Product) :
    ∀ (st : StoreState) (i : String),
      (processCategory st ps).1.knownProductIDs i = true ↔
        (st.knownProductIDs i = true ∨
          i ∈ (processCategory st ps).2.1.map Product.id) := by
  induction ps with
  | nil => simp [processCategory]
  | cons p rest ih =>
      intro st i
      by_cases h : st.knownProductIDs p.id = true
      · simp only [processCategory, h, if_true]
        exact ih st i
      · simp only [processCategory, h, Bool.false_eq_true, if_false,
          List.map_cons, List.mem_cons]
        rw [ih (recordProduct st p) i, recordProduct_known]
        tauto

theorem processCategory_mono (ps : List Product) (st : StoreState) (i : String)
    (h : st.knownProductIDs i = true) :
    (processCategory st ps).1.knownProductIDs i = true :=
  (processCategory_known_iff ps st i).mpr (Or.inl h)

theorem processCategory_known_not_new (ps : List Product) :
    ∀ (st : StoreState) (i : String), st.knownProductIDs i = true →
      i ∉ (processCategory st ps).2.1.map Product.id := by
  induction ps with
  | nil => simp [processCategory]
  | cons p rest ih =>
      intro st i h
      by_cases hp : st.knownProductIDs p.id = true
      · simp only [processCategory, hp, if_true]
        exact ih st i h
      · simp only [processCategory, hp, Bool.false_eq_true, if_false,
          List.map_cons, List.mem_cons, not_or]
        constructor
        · rintro rfl
          rw [h] at hp
          exact hp rfl
        · refine ih (recordProduct st p) i ?_
          rw [recordProduct_known]
          exact Or.inr h

theorem processCategory_nodup (ps : List Product) :
    ∀ st : StoreState, ((processCategory st ps).2.1.map Product.id).Nodup := by
  induction ps with
  | nil => simp [processCategory]
  | cons p rest ih =>
      intro st
      by_cases hp : st.knownProductIDs p.id = true
      · simp only [processCategory, hp, if_true]
        exact ih st
      · simp only [processCategory, hp, Bool.false_eq_true, if_false,
          List.map_cons, List.nodup_cons]
        refine ⟨?_, ih (recordProduct st p)⟩
        refine processCategory_known_not_new rest (recordProduct st p) p.id ?_
        rw [recordProduct_known]
        exact Or.inl rfl

theorem processCategory_complete (ps : List Product) :
    ∀ (st : StoreState) (i : String), i ∈ ps.map Product.id →
      (processCategory st ps).1.knownProductIDs i = true := by
  induction ps with
  | nil => simp
  | cons p rest ih =>
      intro st i h
      rcases List.mem_cons.mp h with h' | h'
      · by_cases hp : st.knownProductIDs p.id = true
        · simp only [processCategory, hp, if_true]
          refine processCategory_mono rest st i ?_
          rw [h']
          exact hp
        · simp only [processCategory, hp, Bool.false_eq_true, if_false]
          refine processCategory_mono rest (recordProduct st p) i ?_
          rw [recordProduct_known]
          exact Or.inl h'
      · by_cases hp : st.knownProductIDs p.id = true
        · simp only [processCategory, hp, if_true]
          exact ih st i h'
        · simp only [processCategory, hp, Bool.false_eq_true, if_false]
          exact ih (recordProduct st p) i h'

theorem processCategory_outcomes (ps : List Product) :
    ∀ st : StoreState,
      (processCategory st ps).2.2 =
        (processCategory st ps).2.1.map (sendFlag st.initialized) := by
  induction ps with
  | nil => intro st; rfl
  | cons p rest ih =>
      intro st
      by_cases hp : st.knownProductIDs p.id = true
      · simp only [processCategory, hp, if_true]
        exact ih st
      · simp only [processCategory, hp, Bool.false_eq_true, if_false, List.map_cons]
        rw [ih (recordProduct st p), sendToDiscord_eq_flag, recordProduct_initialized]

theorem processCategory_companion (ps : List Product) :
    ∀ st : StoreState, Companion st → Companion (processCategory st ps).1 := by
  induction ps with
  | nil => intro st h; exact h
  | cons p rest ih =>
      intro st h
      by_cases hp : st.knownProductIDs p.id = true
      · simp only [processCategory, hp, if_true]
        exact ih st h
      · simp only [processCategory, hp, Bool.false_eq_true, if_false]
        exact ih (recordProduct st p) (companion_record st p h)

theorem processCycle_initialized (cats : List (List Product)) :
    ∀ st : StoreState, (processCycle st cats).1.initialized = st.initialized := by
  induction cats with
  | nil => intro st; rfl
  | cons cat cats ih =>
      intro st
      simp only [processCycle]
      rw [ih, processCategory_initialized]

theorem processCycle_known_iff (cats : List (List Product)) :
    ∀ (st : StoreState) (i : String),
      (processCycle st cats).1.knownProductIDs i = true ↔
        (st.knownProductIDs i = true ∨
          i ∈ (processCycle st cats).2.1.map Product.id) := by
  induction cats with
  | nil => simp [processCycle]
  | cons cat cats ih =>
      intro st i
      simp only [processCycle, List.map_append, List.mem_append]
      rw [ih, processCategory_known_iff]
      tauto

theorem processCycle_mono (cats : List (List Product)) (st : StoreState) (i : String)
    (h : st.knownProductIDs i = true) :
    (processCycle st cats).1.knownProductIDs i = true :=
  (processCycle_known_iff cats st i).mpr (Or.inl h)

theorem processCycle_known_not_new (cats : List (List Product)) :
    ∀ (st : StoreState) (i : String), st.knownProductIDs i = true →
      i ∉ (processCycle st cats).2.1.map Product.id := by
  induction cats with
  | nil => simp [processCycle]
  | cons cat cats ih =>
      intro st i h
      simp only [processCycle, List.map_append, List.mem_append, not_or]
      exact ⟨processCategory_known_not_new cat st i h,
        ih _ i (processCategory_mono cat st i h)⟩

theorem processCycle_nodup (cats : List (List Product)) :
    ∀ st : StoreState, ((processCycle st cats).2.1.map Product.id).Nodup := by
  induction cats with
  | nil => simp [processCycle]
  | cons cat cats ih =>
      intro st
      simp only [processCycle, List.map_append]
      refine List.Nodup.append (processCategory_nodup cat st) (ih _) ?_
      intro i hi hij
      have hknown : (processCategory st cat).1.knownProductIDs i = true :=
        (processCategory_known_iff cat st i).mpr (Or.inr hi)
      exact processCycle_known_not_new cats _ i hknown hij

theorem processCycle_complete (cats : List (List Product)) :
    ∀ (st : StoreState) (i : String), i ∈ cats.flatten.map Product.id →
      (processCycle st cats).1.knownProductIDs i = true := by
  induction cats with
  | nil => simp
  | cons cat cats ih =>
      intro st i h
      simp only [List.flatten_cons, List.map_append, List.mem_append] at h
      simp only [processCycle]
      rcases h with h | h
      · exact processCycle_mono cats _ i (processCategory_complete cat st i h)
      · exact ih _ i h

theorem processCycle_outcomes (cats : List (List Product)) :
    ∀ st : StoreState,
      (processCycle st cats).2.2 =
        (processCycle st cats).2.1.map (sendFlag st.initialized) := by
  induction cats with
  | nil => intro st; rfl
  | cons cat cats ih =>
      intro st
      simp only [processCycle, List.map_append]
      rw [ih, processCategory_outcomes, processCategory_initialized]

theorem processCycle_companion (cats : List (List Product)) :
    ∀ st : StoreState, Companion st → Companion (processCycle st cats).1 := by
  induction cats with
  | nil => intro st h; exact h
  | cons cat cats ih =>
      intro st h
      simp only [processCycle]
      exact ih _ (processCategory_companion cat st h)

theorem runCycles_initialized (cycles : List (List (List Product))) :
    ∀ st : StoreState, (runCycles st cycles).1.initialized = st.initialized := by
  induction cycles with
  | nil => intro st; rfl
  | cons c cs ih =>
      intro st
      simp only [runCycles]
      rw [ih, processCycle_initialized]

theorem runCycles_known_iff (cycles : List (List (List Product))) :
    ∀ (st : StoreState) (i : String),
      (runCycles st cycles).1.knownProductIDs i = true ↔
        (st.knownProductIDs i = true ∨
          i ∈ (runCycles st cycles).2.1.map Product.id) := by
  induction cycles with
  | nil => simp [runCycles]
  | cons c cs ih =>
      intro st i
      simp only [runCycles, List.map_append, List.mem_append]
      rw [ih, processCycle_known_iff]
      tauto

theorem runCycles_mono (cycles : List (List (List Product))) (st : StoreState)
    (i : String) (h : st.knownProductIDs i = true) :
    (runCycles st cycles).1.knownProductIDs i = true :=
  (runCycles_known_iff cycles st i).mpr (Or.inl h)

theorem runCycles_known_not_new (cycles : List (List (List Product))) :
    ∀ (st : StoreState) (i : String), st.knownProductIDs i = true →
      i ∉ (runCycles st cycles).2.1.map Product.id := by
  induction cycles with
  | nil => simp [runCycles]
  | cons c cs ih =>
      intro st i h
      simp only [runCycles, List.map_append, List.mem_append, not_or]
      exact ⟨processCycle_known_not_new c st i h,
        ih _ i (processCycle_mono c st i h)⟩

theorem runCycles_nodup (cycles : List (List (List Product))) :
    ∀ st : StoreState, ((runCycles st cycles).2.1.map Product.id).Nodup := by
  induction cycles with
  | nil => simp [runCycles]
  | cons c cs ih =>
      intro st
      simp only [runCycles, List.map_append]
      refine List.Nodup.append (processCycle_nodup c st) (ih _) ?_
      intro i hi hij
      have hknown : (processCycle st c).1.knownProductIDs i = true :=
        (processCycle_known_iff c st i).mpr (Or.inr hi)
      exact runCycles_known_not_new cs _ i hknown hij

theorem runCycles_complete (cycles : List (List (List Product))) :
    ∀ (st : StoreState) (i : String), i ∈ cycles.flatten.flatten.map Product.id →
      (runCycles st cycles).1.knownProductIDs i = true := by
  induction cycles with
  | nil => simp
  | cons c cs ih =>
      intro st i h
      simp only [List.flatten_cons, List.flatten_append, List.map_append,
        List.mem_append] at h
      simp only [runCycles]
      rcases h with h | h
      · exact runCycles_mono cs _ i (processCycle_complete c st i h)
      · exact ih _ i h

theorem runCycles_outcomes (cycles : List (List (List Product))) :
    ∀ st : StoreState,
      (runCycles st cycles).2.2 =
        (runCycles st cycles).2.1.map (sendFlag st.initialized) := by
  induction cycles with
  | nil => intro st; rfl
  | cons c cs ih =>
      intro st
      simp only [runCycles, List.map_append]
      rw [ih, processCycle_outcomes, processCycle_initialized]

theorem runCycles_companion (cycles : List (List (List Product))) :
    ∀ st : StoreState, Companion st → Companion (runCycles st cycles).1 := by
  induction cycles with
  | nil => intro st h; exact h
  | cons c cs ih =>
      intro st h
      simp only [runCycles]
      exact ih _ (processCycle_companion c st h)

/-! Helper lemmas about the build-id pattern matcher. -/

/-- The body contains an occurrence of the full pattern with the given build
id. -/
def ContainsPattern (body : String) (buildID : List Char) : Prop :=
  ∃ s t : List Char, body.data = s ++ (patternChars buildID ++ t)

theorem dropLit_eq_append (lit : List Char) :
    ∀ l r : List Char, dropLit lit l = some r → l = lit ++ r := by
  induction lit with
  | nil =>
      intro l r h
      simp only [dropLit, Option.some.injEq] at h
      simp [h]
  | cons a as_ ih =>
      intro l r h
      cases l with
      | nil => simp [dropLit] at h
      | cons c cs =>
          by_cases hc : c = a
          · simp only [dropLit, hc, if_true] at h
            rw [List.cons_append, ← ih cs r h, hc]
          · simp [dropLit, hc] at h

theorem dropLit_self_append (lit : List Char) :
    ∀ r : List Char, dropLit lit (lit ++ r) = some r := by
  induction lit with
  | nil => intro r; rfl
  | cons a as_ ih => intro r; simp [dropLit, ih]

theorem matchPatternAt_sound (l run : List Char) (h : matchPatternAt l = some run) :
    ValidBuildID run ∧ ∃ t, l = patternChars run ++ t := by
  unfold matchPatternAt at h
  cases hd : dropLit patHead l with
  | none => rw [hd] at h; exact absurd h (by simp)
  | some rest =>
      rw [hd] at h
      simp only at h
      by_cases he : (rest.takeWhile isAlnumChar).isEmpty
      · rw [if_pos he] at h
        exact absurd h (by simp)
      · rw [if_neg he] at h
        cases ht : dropLit patTail (rest.dropWhile isAlnumChar) with
        | none => rw [ht] at h; exact absurd h (by simp)
        | some t2 =>
            rw [ht] at h
            have hrun : run = rest.takeWhile isAlnumChar := by
              cases h; rfl
            subst hrun
            refine ⟨⟨?_, ?_⟩, t2, ?_⟩
            · intro hnil
              rw [hnil] at he
              exact he rfl
            · rw [List.all_eq_true]
              intro a ha
              exact List.mem_takeWhile_imp ha
            · have h1 : l = patHead ++ rest := dropLit_eq_append patHead l rest hd
              have h2 : rest.dropWhile isAlnumChar = patTail ++ t2 :=
                dropLit_eq_append patTail _ t2 ht
              have h3 : rest.takeWhile isAlnumChar ++ rest.dropWhile isAlnumChar = rest :=
                List.takeWhile_append_dropWhile isAlnumChar rest
              rw [patternChars, h1]
              conv_lhs => rw [← h3]
              rw [h2]
              simp

theorem findBuildID_sound : ∀ l run : List Char, findBuildID l = some run →
    ValidBuildID run ∧ ∃ s t, l = s ++ (patternChars run ++ t) := by
  intro l
  induction l with
  | nil => intro run h; simp [findBuildID] at h
  | cons c cs ih =>
      intro run h
      simp only [findBuildID] at h
      cases hm : matchPatternAt (c :: cs) with
      | some r =>
          rw [hm] at h
          have hr : r = run := by cases h; rfl
          subst hr
          obtain ⟨hv, t, hpre⟩ := matchPatternAt_sound _ _ hm
          exact ⟨hv, [], t, hpre⟩
      | none =>
          rw [hm] at h
          obtain ⟨hv, s, t, hcs⟩ := ih run h
          exact ⟨hv, c :: s, t, by rw [List.cons_append, hcs]⟩

theorem matchPatternAt_complete (buildID t : List Char) (h : ValidBuildID buildID) :
    matchPatternAt (patternChars buildID ++ t) = some buildID := by
  obtain ⟨hne, hall⟩ := h
  have hmem : ∀ a ∈ buildID, isAlnumChar a = true := List.all_eq_true.mp hall
  have hassoc : patternChars buildID ++ t = patHead ++ (buildID ++ (patTail ++ t)) := by
    simp [patternChars]
  rw [hassoc]
  unfold matchPatternAt
  rw [dropLit_self_append]
  have hslash : isAlnumChar '/' = false := by decide
  have hpt : patTail ++ t = '/' :: ("_ssgManifest.js".data ++ t) := rfl
  have htake : (buildID ++ (patTail ++ t)).takeWhile isAlnumChar = buildID := by
    rw [List.takeWhile_append_of_pos hmem, hpt,
      List.takeWhile_cons_of_neg (by simp [hslash])]
    simp
  have hdrop : (buildID ++ (patTail ++ t)).dropWhile isAlnumChar = patTail ++ t := by
    rw [List.dropWhile_append_of_pos hmem, hpt,
      List.dropWhile_cons_of_neg (by simp [hslash])]
  simp only [htake, hdrop]
  rw [if_neg (by simpa using hne)]
  rw [dropLit_self_append]

theorem findBuildID_complete :
    ∀ (s buildID t : List Char), ValidBuildID buildID →
      ∃ run, findBuildID (s ++ (patternChars buildID ++ t)) = some run := by
  intro s
  induction s with
  | nil =>
      intro buildID t h
      cases hl : patternChars buildID ++ t with
      | nil =>
          exact absurd hl (by simp [patternChars, patHead])
      | cons c cs =>
          refine ⟨buildID, ?_⟩
          simp only [List.nil_append, hl, findBuildID]
          rw [← hl, matchPatternAt_complete buildID t h]
  | cons c s' ih =>
      intro buildID t h
      rw [List.cons_append]
      simp only [findBuildID]
      cases hm : matchPatternAt (c :: (s' ++ (patternChars buildID ++ t))) with
      | some r => exact ⟨r, rfl⟩
      | none =>
          obtain ⟨run, hrun⟩ := ih buildID t h
          exact ⟨run, hrun⟩

theorem containsPattern_of_find (body : String) (run : List Char)
    (h : findBuildID body.data = some run) :
    ValidBuildID run ∧ ContainsPattern body run := by
  obtain ⟨hv, s, t, hb⟩ := findBuildID_sound body.data run h
  exact ⟨hv, s, t, hb⟩

theorem find_of_containsPattern (body : String) (buildID : List Char)
    (hv : ValidBuildID buildID) (hc : ContainsPattern body buildID) :
    ∃ run, findBuildID body.data = some run := by
  obtain ⟨s, t, hb⟩ := hc
  rw [hb]
  exact findBuildID_complete s buildID t hv

/-! Helper lemmas about the price formatting. -/

/-- Price text as the specification words it: `$`, the decimal major units
(`n / 100`), a period, and the two-digit zero-padded minor units
(`n mod 100`).  Stated from the spec for comparison with `priceString`. -/
def specPriceText (n : Nat) : String :=
  "$" ++ Nat.repr (n / 100) ++ "." ++
    (if n % 100 < 10 then "0" ++ Nat.repr (n % 100) else Nat.repr (n % 100))

theorem intDecimal_ofNat (m : Nat) : intDecimal (Int.ofNat m) = Nat.repr m := by
  rw [intDecimal,
    if_neg (show ¬Int.ofNat m < 0 from Int.not_lt.mpr (Int.natCast_nonneg m))]
  rfl

theorem intDecimal02_ofNat_lt100 :
    ∀ m : Fin 100, intDecimal02 (Int.ofNat m.val) =
      (if m.val < 10 then "0" ++ Nat.repr m.val else Nat.repr m.val) := by
  decide

theorem priceString_eq_spec (n : Int) (h : 0 ≤ n) :
    priceString n = specPriceText n.toNat := by
  obtain ⟨m, rfl⟩ : ∃ m : Nat, n = Int.ofNat m := ⟨n.toNat, (Int.toNat_of_nonneg h).symm⟩
  have hdiv : (Int.ofNat m).tdiv 100 = Int.ofNat (m / 100) := rfl
  have hmod : (Int.ofNat m).tmod 100 = Int.ofNat (m % 100) := rfl
  have hlt : m % 100 < 100 := Nat.mod_lt _ (by omega)
  rw [priceString, specPriceText, hdiv, hmod, intDecimal_ofNat,
    intDecimal02_ofNat_lt100 ⟨m % 100, hlt⟩]
  rfl

/-! Helper lemma about the category-fetch flattening. -/

theorem foldl_append_eq_flatten (scs : List SubCategory) :
    ∀ acc : List Product,
      scs.foldl (fun a sc => a ++ sc.products) acc =
        acc ++ (scs.map SubCategory.products).flatten := by
  induction scs with
  | nil => simp
  | cons sc rest ih => intro acc; simp [ih]

/-! Concrete fixture data for witnesses and counterexamples. -/

/-- A sample thumbnail. -/
def sampleThumb : Thumbnail := { url := "https://img.ui.com/a.png" }

/-- A sample one-variant product. -/
def productA : Product :=
  { id := "idA", title := "Product A", shortDescription := "descA"
    slug := "slug-a", thumbnail := sampleThumb
    variants := [{ id := "vA", displayPrice := { amount := 12345, currency := "USD" } }] }

/-- A second sample one-variant product. -/
def productB : Product :=
  { id := "idB", title := "Product B", shortDescription := "descB"
    slug := "slug-b", thumbnail := sampleThumb
    variants := [{ id := "vB", displayPrice := { amount := 599, currency := "USD" } }] }

/-- A product whose variants sequence is empty. -/
def productZ : Product :=
  { id := "idZ", title := "Product Z", shortDescription := "descZ"
    slug := "slug-z", thumbnail := sampleThumb, variants := [] }

/-- Companion invariant holds right after store construction, whatever the
persisted file held. -/
theorem companion_create (fd : FileData) : Companion (CreateUnifiStore fd).1 := by
  cases fd with
  | absent => intro i; exact companion_initial i
  | empty => intro i; exact companion_initial i
  | corrupt => intro i; exact companion_initial i
  | valid ps =>
      intro i
      exact companion_foldl ps initialStoreState companion_initial i

/-! The claims. -/

/-- C1: once a product identifier is in the Known-Product Store, no later
processing invokes `sendToDiscord` for it again; an identifier notified during
a run was absent from the store when the run began; and across any run each
identifier is notified at most once. -/
theorem claim1_at_most_once_notification :
    (∀ (st : StoreState) (cycles : List (List (List Product))) (i : String),
        st.knownProductIDs i = true →
          i ∉ (runCycles st cycles).2.1.map Product.id)
    ∧ (∀ (st : StoreState) (cycles : List (List (List Product))) (i : String),
        i ∈ (runCycles st cycles).2.1.map Product.id →
          st.knownProductIDs i = false)
    ∧ (∀ (st : StoreState) (cycles : List (List (List Product))) (i : String),
        ((runCycles st cycles).2.1.map Product.id).count i ≤ 1) := by
  refine ⟨fun st cycles i h => runCycles_known_not_new cycles st i h, ?_, ?_⟩
  · intro st cycles i h
    by_contra hk
    exact runCycles_known_not_new cycles st i
      (Bool.not_eq_false _ ▸ hk) h
  · intro st cycles i
    exact List.nodup_iff_count_le_one.mp (runCycles_nodup cycles st) i

/-- C1 witness: with `idA` known from the persisted file, a run that fetches
`productA` and `productB` never notifies `idA` again. -/
theorem claim1_witness :
    (CreateUnifiStore (FileData.valid [productA])).1.knownProductIDs "idA" = true
    ∧ "idA" ∉ (runCycles (CreateUnifiStore (FileData.valid [productA])).1
        [[[productA, productB]]]).2.1.map Product.id :=
  ⟨by decide, claim1_at_most_once_notification.1 _ [[[productA, productB]]] "idA" (by decide)⟩

/-- C10: after store construction and any run of poll cycles, the set of
identifiers mapped to `true` in `KnownProductIDs` equals the key set of
`KnownProducts`. -/
theorem claim10_companion_invariant :
    ∀ (fd : FileData) (cycles : List (List (List Product))),
      Companion (runCycles (CreateUnifiStore fd).1 cycles).1 :=
  fun fd cycles => runCycles_companion cycles _ (companion_create fd)

/-- C4: `loadKnownProducts` leaves an empty uninitialized store and creates an
empty file when the file is absent; leaves an empty uninitialized store on an
empty file; populates both maps with exactly the decoded products and sets
`Initialized` on a valid JSON array; and leaves an empty uninitialized store
(without crashing) on a decode failure. -/
theorem claim4_load_cases :
    (CreateUnifiStore FileData.absent = (initialStoreState, FileData.empty))
    ∧ (CreateUnifiStore FileData.empty = (initialStoreState, FileData.empty))
    ∧ (∀ ps : List Product,
        (CreateUnifiStore (FileData.valid ps)).1.initialized = true
        ∧ (∀ i, (CreateUnifiStore (FileData.valid ps)).1.knownProductIDs i = true ↔
            i ∈ ps.map Product.id)
        ∧ ((ps.map Product.id).Nodup → ∀ p ∈ ps,
            (CreateUnifiStore (FileData.valid ps)).1.knownProducts p.id = some p))
    ∧ (CreateUnifiStore FileData.corrupt = (initialStoreState, FileData.corrupt)) := by
  refine ⟨rfl, rfl, ?_, rfl⟩
  intro ps
  refine ⟨rfl, ?_, ?_⟩
  · intro i
    show ((ps.foldl recordProduct initialStoreState).knownProductIDs i = true) ↔ _
    rw [foldl_record_known]
    simp [initialStoreState]
  · intro hnd p hp
    exact foldl_record_lookup ps initialStoreState p hnd hp

/-- C4 witness: loading a valid one-product array yields an initialized store
holding exactly that product. -/
theorem claim4_witness :
    ([productA].map Product.id).Nodup
    ∧ (CreateUnifiStore (FileData.valid [productA])).1.knownProducts productA.id
        = some productA :=
  ⟨by decide, (claim4_load_cases.2.2.1 [productA]).2.2 (by decide) productA (by simp)⟩

/-- C5: persisting new products onto an existing persisted array and reloading
yields a store whose membership is exactly the union of the old and new
identifiers, with every product record preserved through the round-trip. -/
theorem claim5_round_trip :
    ∀ old newProducts : List Product, ∃ fd' : FileData,
      saveKnownProducts (FileData.valid old) newProducts = .ok fd'
      ∧ (∀ i, ((CreateUnifiStore fd').1.knownProductIDs i = true) ↔
            (i ∈ old.map Product.id ∨ i ∈ newProducts.map Product.id))
      ∧ (((old ++ newProducts).map Product.id).Nodup →
          ∀ p ∈ old ++ newProducts,
            (CreateUnifiStore fd').1.knownProducts p.id = some p) := by
  intro old newProducts
  refine ⟨.valid (old ++ newProducts), rfl, ?_, ?_⟩
  · intro i
    show ((old ++ newProducts).foldl recordProduct initialStoreState).knownProductIDs i
        = true ↔ _
    rw [foldl_record_known]
    simp [initialStoreState]
  · intro hnd p hp
    exact foldl_record_lookup _ initialStoreState p hnd hp

/-- C5 witness: persisting `productB` onto a store holding `productA` and
reloading preserves `productB` exactly. -/
theorem claim5_witness :
    (([productA] ++ [productB]).map Product.id).Nodup
    ∧ ∃ fd', saveKnownProducts (FileData.valid [productA]) [productB] = .ok fd'
        ∧ (CreateUnifiStore fd').1.knownProducts productB.id = some productB := by
  refine ⟨by decide, ?_⟩
  obtain ⟨fd', hsave, _, hrec⟩ := claim5_round_trip [productA] [productB]
  exact ⟨fd', hsave, hrec (by decide) productB (by simp)⟩

/-- C2 counterexample: on a run whose first load found no persisted file, the
store is uninitialized and stays uninitialized, so a genuinely new product
(`productB`) first seen in the *second* poll cycle is detected (it is in
`newProducts`) but its notification is skipped — zero notifications instead of
the claimed exactly one. -/
theorem claim2_counterexample :
    (CreateUnifiStore FileData.absent).1.initialized = false
    ∧ (runCycles (CreateUnifiStore FileData.absent).1
        [[[productA]], [[productB]]]).2.1 = [productA, productB]
    ∧ (runCycles (CreateUnifiStore FileData.absent).1
        [[[productA]], [[productB]]]).2.2
        = [SendOutcome.skipped, SendOutcome.skipped] := by
  exact ⟨rfl, by decide, by decide⟩

/-- C2 amended: the `Initialized` flag is set only by loading a valid
persisted array, never during the poll loop; so a run whose first load yields
an empty uninitialized store sends zero notifications on *every* cycle (first
populate and steady state alike), while a run whose first load read a valid
array never re-notifies a loaded product and notifies each genuinely new
product exactly once (its `sendToDiscord` call actually posting). -/
theorem claim2_amended :
    (∀ cycles, ((runCycles (CreateUnifiStore FileData.absent).1 cycles).2.2).all
        (· = SendOutcome.skipped) = true)
    ∧ (∀ (ps : List Product) cycles (i : String), i ∈ ps.map Product.id →
        i ∉ (runCycles (CreateUnifiStore (FileData.valid ps)).1 cycles).2.1.map
          Product.id)
    ∧ (∀ (ps : List Product) cycles (p : Product),
        (CreateUnifiStore (FileData.valid ps)).1.knownProductIDs p.id = false →
        p.id ∈ cycles.flatten.flatten.map Product.id →
        ((runCycles (CreateUnifiStore (FileData.valid ps)).1 cycles).2.1.map
          Product.id).count p.id = 1)
    ∧ (∀ (ps : List Product) cycles,
        (runCycles (CreateUnifiStore (FileData.valid ps)).1 cycles).2.2
          = (runCycles (CreateUnifiStore (FileData.valid ps)).1 cycles).2.1.map
              (sendFlag true)) := by
  refine ⟨?_, ?_, ?_, ?_⟩
  · intro cycles
    rw [runCycles_outcomes]
    have hinit : (CreateUnifiStore FileData.absent).1.initialized = false := rfl
    rw [hinit]
    simp only [List.all_eq_true, List.mem_map]
    rintro o ⟨p, _, rfl⟩
    rfl
  · intro ps cycles i hmem
    refine runCycles_known_not_new cycles _ i ?_
    show ((ps.foldl recordProduct initialStoreState).knownProductIDs i = true)
    rw [foldl_record_known]
    exact Or.inr hmem
  · intro ps cycles p hunknown hupstream
    have hknown_after : (runCycles (CreateUnifiStore (FileData.valid ps)).1
        cycles).1.knownProductIDs p.id = true :=
      runCycles_complete cycles _ p.id hupstream
    have hmem : p.id ∈ (runCycles (CreateUnifiStore (FileData.valid ps)).1
        cycles).2.1.map Product.id := by
      rcases (runCycles_known_iff cycles _ p.id).mp hknown_after with h | h
      · rw [hunknown] at h
        exact absurd h (by simp)
      · exact h
    exact List.count_eq_one_of_mem (runCycles_nodup cycles _) hmem
  · intro ps cycles
    rw [runCycles_outcomes]
    have hinit : (CreateUnifiStore (FileData.valid ps)).1.initialized = true := rfl
    rw [hinit]

/-- C2 witness: with `productA` loaded from a valid persisted file, the
genuinely new `productB` fetched in a later cycle is notified exactly once. -/
theorem claim2_witness :
    ((CreateUnifiStore (FileData.valid [productA])).1.knownProductIDs productB.id
        = false
      ∧ productB.id ∈ ([[[productB]]] : List (List (List Product))).flatten.flatten.map
          Product.id)
    ∧ ((runCycles (CreateUnifiStore (FileData.valid [productA])).1
        [[[productB]]]).2.1.map Product.id).count productB.id = 1 :=
  ⟨⟨by decide, by decide⟩,
    claim2_amended.2.2.1 [productA] [[[productB]]] productB (by decide) (by decide)⟩

/-- C3: a product with an empty variants sequence is NOT handled defensively:
with an initialized store, `sendToDiscord` evaluates the unguarded
`product.Variants[0]` and panics, and `SendProduct` fails the same way during
payload construction. -/
theorem claim3_zero_variants_panics :
    sendToDiscord (CreateUnifiStore (FileData.valid [productA])).1 productZ
      = SendOutcome.panicked
    ∧ sendProductPayload productZ = none :=
  ⟨rfl, rfl⟩

/-- C6 counterexample: a rate-limited notification is retried as long as the
sink keeps answering 429, not once: with status sequence
`[429, 429, 200]` the webhook is attempted 3 times (sleeping 5 seconds before
each retry), contradicting the claimed single retry (at most 2 attempts). -/
theorem claim6_counterexample :
    sendProductAttempts [429, 429, 200] = some (true, 3, 10) ∧ ¬(3 ≤ 2) := by
  exact ⟨rfl, by decide⟩

/-- C6 amended: an HTTP 429 response causes the notification to be retried
after a fixed 5-second delay, repeating for as long as the sink keeps
returning 429 (unbounded, rather than exactly once); a 200/204 succeeds on
that attempt; any other status is reported as a failure immediately, with no
retry. -/
theorem claim6_amended :
    (∀ rest, sendProductAttempts (429 :: rest)
        = (sendProductAttempts rest).map (fun r => (r.1, r.2.1 + 1, r.2.2 + 5)))
    ∧ (∀ (s : Nat) rest, s ≠ 429 → s ≠ 200 → s ≠ 204 →
        sendProductAttempts (s :: rest) = some (false, 1, 0))
    ∧ (∀ (s : Nat) rest, s = 200 ∨ s = 204 →
        sendProductAttempts (s :: rest) = some (true, 1, 0)) := by
  refine ⟨?_, ?_, ?_⟩
  · intro rest
    simp only [sendProductAttempts, if_pos rfl]
    cases sendProductAttempts rest with
    | none => rfl
    | some r => cases r with | mk b nt => cases nt with | mk n t => rfl
  · intro s rest h429 h200 h204
    simp only [sendProductAttempts, if_neg h429]
    rw [if_neg (by simp [h200, h204])]
  · rintro s rest (rfl | rfl) <;> rfl

/-- C6 witness: a 500 response is reported as a failure without any retry. -/
theorem claim6_witness :
    ((500 : Nat) ≠ 429 ∧ (500 : Nat) ≠ 200 ∧ (500 : Nat) ≠ 204)
    ∧ sendProductAttempts [500] = some (false, 1, 0) :=
  ⟨⟨by decide, by decide, by decide⟩,
    claim6_amended.2.1 500 [] (by decide) (by decide) (by decide)⟩

/-- Fixture homepage body containing one occurrence of the build-id pattern
with build id `abc123`. -/
def fixtureBody : String :=
  "window.src = https://assets-new.ecomm.ui.com/_next/static/abc123/_ssgManifest.js;"

/-- C7: a response body containing a match of the build-id pattern resolves to
the endpoint built from the captured build id (on the fixture with build id
`abc123`, to `https://store.ui.com/_next/data/abc123/us/en.json`); a body with
no match fails with the parse error. -/
theorem claim7_endpoint_resolution :
    (∀ (body : String) (buildID : List Char),
        ValidBuildID buildID → ContainsPattern body buildID →
          ∃ buildID2, ValidBuildID buildID2 ∧ ContainsPattern body buildID2 ∧
            fetchBuildIDResult body = .ok (mkEndpoint (String.mk buildID2)))
    ∧ fetchBuildIDResult fixtureBody
        = .ok "https://store.ui.com/_next/data/abc123/us/en.json"
    ∧ (∀ body : String,
        (¬∃ buildID, ValidBuildID buildID ∧ ContainsPattern body buildID) →
          fetchBuildIDResult body
            = .error "failed to extract build ID from response") := by
  refine ⟨?_, ?_, ?_⟩
  · intro body buildID hv hc
    obtain ⟨run, hrun⟩ := find_of_containsPattern body buildID hv hc
    obtain ⟨hv2, hc2⟩ := containsPattern_of_find body run hrun
    refine ⟨run, hv2, hc2, ?_⟩
    unfold fetchBuildIDResult
    rw [hrun]
  · rfl
  · intro body hnone
    cases hf : findBuildID body.data with
    | some run =>
        obtain ⟨hv, hc⟩ := containsPattern_of_find body run hf
        exact absurd ⟨run, hv, hc⟩ hnone
    | none =>
        unfold fetchBuildIDResult
        rw [hf]

/-- C7 witness: the fixture body contains a valid `abc123` match, and the
resolver yields the endpoint built from a build id occurring in the body. -/
theorem claim7_witness :
    (ValidBuildID "abc123".data ∧ ContainsPattern fixtureBody "abc123".data)
    ∧ ∃ buildID2, ValidBuildID buildID2 ∧ ContainsPattern fixtureBody buildID2 ∧
        fetchBuildIDResult fixtureBody = .ok (mkEndpoint (String.mk buildID2)) :=
  ⟨⟨by decide, ⟨"window.src = ".data, ";".data, by decide⟩⟩,
    claim7_endpoint_resolution.1 fixtureBody "abc123".data (by decide)
      ⟨"window.src = ".data, ";".data, by decide⟩⟩

/-- Three further sample products for the category-fetch fixture. -/
def productC : Product :=
  { id := "idC", title := "Product C", shortDescription := "descC"
    slug := "slug-c", thumbnail := sampleThumb
    variants := [{ id := "vC", displayPrice := { amount := 100, currency := "USD" } }] }

/-- Fourth sample product. -/
def productD : Product :=
  { id := "idD", title := "Product D", shortDescription := "descD"
    slug := "slug-d", thumbnail := sampleThumb
    variants := [{ id := "vD", displayPrice := { amount := 2500, currency := "USD" } }] }

/-- Fifth sample product. -/
def productE : Product :=
  { id := "idE", title := "Product E", shortDescription := "descE"
    slug := "slug-e", thumbnail := sampleThumb
    variants := [{ id := "vE", displayPrice := { amount := 99999, currency := "USD" } }] }

/-- Fixture category response with two subcategories of sizes 2 and 3. -/
def fixtureResponse : Response :=
  { pageProps :=
    { subCategories :=
      [ { products := [productA, productB] }
      , { products := [productC, productD, productE] } ] } }

/-- C8: the category fetch flattens the decoded response into the
concatenation of the subcategory product lists, in order; on the fixture with
subcategories of sizes 2 and 3 it yields the 5 products in original order. -/
theorem claim8_flatten :
    (∀ r : Response, fetchProductsFlatten r
        = (r.pageProps.subCategories.map SubCategory.products).flatten)
    ∧ fetchProductsFlatten fixtureResponse
        = [productA, productB, productC, productD, productE] := by
  constructor
  · intro r
    rw [fetchProductsFlatten, foldl_append_eq_flatten]
    rw [List.nil_append]
  · rfl

/-- The first variant of `productB`, for the C9 witness. -/
def variantB : Variant := { id := "vB", displayPrice := { amount := 599, currency := "USD" } }

/-- C9: for a product whose first variant has non-negative amount `n`, the
notification's price field is `$` followed by the decimal of `n / 100`, a
period, and the two-digit zero-padded decimal of `n mod 100`. -/
theorem claim9_price_format :
    ∀ (st : StoreState) (p : Product) (v : Variant) (rest : List Variant),
      st.initialized = true → p.variants = v :: rest →
      0 ≤ v.displayPrice.amount →
        sendToDiscord st p = SendOutcome.sent (mkEmbed p v)
        ∧ (mkEmbed p v).fields.map Field.value
            = [v.id, specPriceText v.displayPrice.amount.toNat] := by
  intro st p v rest hinit hvar hnn
  constructor
  · simp [sendToDiscord, hinit, hvar]
  · simp [mkEmbed, priceString_eq_spec _ hnn]

/-- C9 witness: `productB`, amount 599 minor units, is notified with price
text formatted from 599 (namely `$5.99`). -/
theorem claim9_witness :
    ((CreateUnifiStore (FileData.valid [productA])).1.initialized = true
      ∧ productB.variants = variantB :: []
      ∧ (0 : Int) ≤ variantB.displayPrice.amount)
    ∧ sendToDiscord (CreateUnifiStore (FileData.valid [productA])).1 productB
        = SendOutcome.sent (mkEmbed productB variantB)
    ∧ (mkEmbed productB variantB).fields.map Field.value
        = [variantB.id, specPriceText variantB.displayPrice.amount.toNat] :=
  ⟨⟨rfl, by decide, by decide⟩,
    claim9_price_format _ productB variantB [] rfl (by decide) (by decide)⟩

end UnifiMonitor
